import Mathlib

/-!
# SPDK Go JSON-RPC client: a shallow embedding

Sources embedded here:

* `go/rpc/client/client.go`: `Client.Call`, `createRequest`,
  `verifyRequestParamsType`, `CreateClientWithJsonCodec`, the `Request`,
  `Response` and `Error` records and their JSON field tags;
* `go/rpc/clientIntegration.go`: `spdk_gorpc_call`.

The Go standard library (`reflect`, `encoding/json`, `net`) is not part of the
sources.  What the code observes of it is modelled as follows.

* A value held in an `any` is `Option GoValue`: `none` is the nil interface,
  `some v` a value with a dynamic type.  A nil map stored in an `any` is
  therefore `some _`, as in Go.
* JSON documents are trees (`Json`); an object keeps its members in order.
* The peer of a connection is a parameter (`Stream`): whether the write
  fails and what `Decode` yields.
* The network is a parameter (`Net`); every call into package `net` is
  recorded in a list of `NetOp`.
-/

set_option linter.dupNamespace false

namespace Spdk

/-! ## JSON trees -/

/-- A JSON document.  Numbers keep their literal. -/
inductive Json where
  | null
  | bool (b : Bool)
  | num (lit : String)
  | str (s : String)
  | arr (elems : List Json)
  | obj (members : List (String × Json))
  deriving Repr

/-- The member names of an object, in order; empty for any other value. -/
def Json.keys : Json → List String
  | .obj ms => ms.map Prod.fst
  | _ => []

/-- The value of member `k` of an object (the last one when repeated). -/
def Json.member (k : String) : Json → Option Json
  | .obj ms => (ms.reverse.find? (fun m => m.1 == k)).map Prod.snd
  | _ => none

/-! ## `reflect` -/

/-- The kinds of `reflect.Kind`. -/
inductive Kind where
  | Invalid | Bool | Int | Int8 | Int16 | Int32 | Int64
  | Uint | Uint8 | Uint16 | Uint32 | Uint64 | Uintptr
  | Float32 | Float64 | Complex64 | Complex128
  | Array | Chan | Func | Interface | Map | Pointer | Slice | String | Struct
  | UnsafePointer
  deriving DecidableEq, Repr

/-- The method `reflect.Kind.String`. -/
def kindString : Kind → String
  | .Invalid => "invalid" | .Bool => "bool" | .Int => "int" | .Int8 => "int8"
  | .Int16 => "int16" | .Int32 => "int32" | .Int64 => "int64"
  | .Uint => "uint" | .Uint8 => "uint8" | .Uint16 => "uint16"
  | .Uint32 => "uint32" | .Uint64 => "uint64" | .Uintptr => "uintptr"
  | .Float32 => "float32" | .Float64 => "float64"
  | .Complex64 => "complex64" | .Complex128 => "complex128"
  | .Array => "array" | .Chan => "chan" | .Func => "func"
  | .Interface => "interface" | .Map => "map" | .Pointer => "ptr"
  | .Slice => "slice" | .String => "string" | .Struct => "struct"
  | .UnsafePointer => "unsafe.Pointer"

/-- A Go type, as far as `reflect.Type.Kind` and the `Elem` of a pointer type
see it: either a pointer to a type, or a type of some other kind. -/
inductive GoType where
  | Bool | Int | Int8 | Int16 | Int32 | Int64
  | Uint | Uint8 | Uint16 | Uint32 | Uint64 | Uintptr
  | Float32 | Float64 | Complex64 | Complex128
  | Array | Chan | Func | Interface | Map | Slice | String | Struct
  | UnsafePointer
  | Pointer (elem : GoType)
  deriving DecidableEq, Repr

/-- The method `reflect.Type.Kind`. -/
def typeKind : GoType → Kind
  | .Bool => .Bool | .Int => .Int | .Int8 => .Int8 | .Int16 => .Int16
  | .Int32 => .Int32 | .Int64 => .Int64
  | .Uint => .Uint | .Uint8 => .Uint8 | .Uint16 => .Uint16
  | .Uint32 => .Uint32 | .Uint64 => .Uint64 | .Uintptr => .Uintptr
  | .Float32 => .Float32 | .Float64 => .Float64
  | .Complex64 => .Complex64 | .Complex128 => .Complex128
  | .Array => .Array | .Chan => .Chan | .Func => .Func
  | .Interface => .Interface | .Map => .Map | .Slice => .Slice
  | .String => .String | .Struct => .Struct
  | .UnsafePointer => .UnsafePointer
  | .Pointer _ => .Pointer

/-- The method `reflect.Type.Elem` on a pointer type.  The code calls it only
when the kind is `Pointer`; on the other types this model returns the type
itself. -/
def typeElem : GoType → GoType
  | .Pointer e => e
  | t => t

/-- A non-nil value held in a Go interface, as this package observes it: its
dynamic type, which `reflect.TypeOf` returns, and what `json.Marshal` makes of
it (a tree, or the text of the marshalling error). -/
structure GoValue where
  type : GoType
  json : Except String Json

/-- The function `reflect.TypeOf` on a non-nil interface value. -/
def reflectTypeOf (v : GoValue) : GoType := v.type

/-! ## Errors -/

/-- The record `Error` of `client.go`: a JSON-RPC error object. -/
structure Error where
  Code : Int
  Message : String
  Data : Option GoValue

/-- The method `Error.Error`: `fmt.Sprintf("Code=%d Msg=%s", ...)`. -/
def Error.Error (err : Spdk.Error) : String :=
  "Code=" ++ toString err.Code ++ " Msg=" ++ err.Message

/-- A Go `error` value: an error of the standard library or `fmt.Errorf`
without `%w` (its text), a `*Error`, or `fmt.Errorf(pre + "%w", cause)`. -/
inductive GoError where
  | text (msg : String)
  | rpc (e : Spdk.Error)
  | wrap (pre : String) (cause : GoError)

/-- The text of an error, the method `Error` of the Go interface. -/
def GoError.message : GoError → String
  | .text msg => msg
  | .rpc e => e.Error
  | .wrap pre cause => pre ++ cause.message

/-- The function `errors.Unwrap`. -/
def GoError.Unwrap : GoError → Option GoError
  | .wrap _ cause => some cause
  | _ => none

/-! ## Requests and responses -/

/-- The constant `jsonRPCVersion`. -/
def jsonRPCVersion : String := "2.0"

/-- The constant `Unix`. -/
def Unix : String := "unix"

/-- The constant `TCP`. -/
def TCP : String := "tcp"

/-- The record `Request`.  `ID` is a `uint64`. -/
structure Request where
  Version : String
  Method : String
  Params : Option GoValue
  ID : Nat

/-- The record `Response`.  `ID` is a Go `int`. -/
structure Response where
  Version : String
  Error : Option Spdk.Error
  Result : Option GoValue
  ID : Int

/-- The conversion `uint64(x)` of a Go `int`. -/
def uint64 (x : Int) : Nat := (x % (2 ^ 64 : Int)).toNat

/-- The function `verifyRequestParamsType`; `none` is the nil error. -/
def verifyRequestParamsType (params : Option GoValue) : Option GoError :=
  match params with
  | none => none
  | some v =>
    let paramType := typeKind (reflectTypeOf v)
    let paramType :=
      if paramType = Kind.Pointer then typeKind (typeElem (reflectTypeOf v))
      else paramType
    match paramType with
    | .Array | .Map | .Slice | .Struct => none
    | _ => some (.text ("param type " ++ kindString paramType ++ " is not supported"))

/-- The function `createRequest`. -/
def createRequest (method : String) (requestId : Nat) (params : Option GoValue) :
    Except GoError Request :=
  match verifyRequestParamsType params with
  | some paramErr =>
    .error (.wrap ("error during request creation for " ++ method ++ " method, err: ")
      paramErr)
  | none =>
    .ok { Version := jsonRPCVersion, Method := method, Params := params, ID := requestId }

/-! ## `encoding/json` on the records -/

/-- What `json.Marshal` makes of a `Request`, by its field tags: `jsonrpc` and
`method` always; `params` unless the interface is nil (`omitempty` on a field
of interface type tests the interface, not the value in it); `id` unless
zero. -/
def marshalRequest (req : Request) : Except String Json :=
  let head := [("jsonrpc", Json.str req.Version), ("method", Json.str req.Method)]
  let tail := if req.ID = 0 then [] else [("id", Json.num (toString req.ID))]
  match req.Params with
  | none => .ok (.obj (head ++ tail))
  | some v =>
    match v.json with
    | .error e => .error e
    | .ok j => .ok (.obj (head ++ [("params", j)] ++ tail))

/-- What `json.Marshal` makes of an `Error`: `code` and `message` always,
`data` unless the interface is nil. -/
def marshalError (e : Spdk.Error) : Except String Json :=
  let head := [("code", Json.num (toString e.Code)), ("message", Json.str e.Message)]
  match e.Data with
  | none => .ok (.obj head)
  | some v =>
    match v.json with
    | .error e => .error e
    | .ok j => .ok (.obj (head ++ [("data", j)]))

/-- What `json.Marshal` makes of a `Response`, by its field tags: `jsonrpc`
always; `error` unless the pointer is nil; `result` unless the interface is
nil; `id` unless zero. -/
def marshalResponse (resp : Response) : Except String Json :=
  let head := [("jsonrpc", Json.str resp.Version)]
  let tail := if resp.ID = 0 then [] else [("id", Json.num (toString resp.ID))]
  let err : Except String (List (String × Json)) :=
    match resp.Error with
    | none => .ok []
    | some e => (marshalError e).map (fun j => [("error", j)])
  let res : Except String (List (String × Json)) :=
    match resp.Result with
    | none => .ok []
    | some v => v.json.map (fun j => [("result", j)])
  match err, res with
  | .error e, _ => .error e
  | .ok _, .error e => .error e
  | .ok es, .ok rs => .ok (.obj (head ++ es ++ rs ++ tail))

/-! ## The client -/

/-- A connection of package `net`. -/
structure Conn where
  network : String
  address : String
  deriving DecidableEq, Repr

/-- The record `jsonCodec`: encoder and decoder are bound to `conn`. -/
structure jsonCodec where
  conn : Conn
  deriving DecidableEq, Repr

/-- The function `createJsonCodec`. -/
def createJsonCodec (conn : Conn) : jsonCodec := { conn := conn }

/-- The record `Client`.  `requestId` is an `atomic.Uint64`. -/
structure Client where
  codec : jsonCodec
  requestId : Nat
  deriving DecidableEq, Repr

/-- The peer during one call: the error of writing the encoded request to the
connection, if any, and what `Decoder.Decode` makes of the reply. -/
structure Stream where
  writeErr : Option GoError
  decoded : Except GoError Response

/-- What one invocation of `Call` did: the client afterwards, the id it drew,
the tree handed to the connection (`none` when nothing was written), and the
pair it returned. -/
structure CallOutcome where
  client : Client
  id : Nat
  wire : Option Json
  result : Except GoError Response

/-- The method `Encoder.Encode` on a request: marshal, then write.  Returns
the tree handed to the connection and the error. -/
def encodeRequest (s : Stream) (request : Request) : Option Json × Option GoError :=
  match marshalRequest request with
  | .error e => (none, some (.text e))
  | .ok j => (some j, s.writeErr)

/-- The method `Client.Call`. -/
def Client.Call (c : Client) (s : Stream) (method : String) (params : Option GoValue) :
    CallOutcome :=
  let id := (c.requestId + 1) % 2 ^ 64
  let c := { c with requestId := id }
  match createRequest method id params with
  | .error reqErr =>
    { client := c, id := id, wire := none,
      result := .error (.wrap ("error during client call for " ++ method ++ " method, err: ")
        reqErr) }
  | .ok request =>
    match encodeRequest s request with
    | (wire, some encErr) =>
      { client := c, id := id, wire := wire,
        result := .error (.wrap
          ("error during request encode for " ++ method ++ " method, err: ") encErr) }
    | (wire, none) =>
      match s.decoded with
      | .error decErr =>
        { client := c, id := id, wire := wire,
          result := .error (.wrap
            ("error during response decode for " ++ method ++ " method, err: ") decErr) }
      | .ok response =>
        if request.ID ≠ uint64 response.ID then
          { client := c, id := id, wire := wire,
            result := .error (.text
              ("error mismatch request and response IDs for " ++ method ++ " method")) }
        else
          match response.Error with
          | some e =>
            { client := c, id := id, wire := wire,
              result := .error (.wrap
                ("error received for " ++ method ++ " method, err: ") (.rpc e)) }
          | none =>
            { client := c, id := id, wire := wire, result := .ok response }

/-- The method `Client.Close`: closes the connection of the codec. -/
def Client.Close (c : Client) : Conn := c.codec.conn

/-! ## Connections -/

/-- An address of package `net`, by the text its method `String` returns. -/
structure Addr where
  text : String
  deriving DecidableEq, Repr

/-- The network: what package `net` answers to a resolution and to a dial. -/
structure Net where
  ResolveUnixAddr : String → String → Except GoError Addr
  DialUnix : String → Addr → Except GoError Conn
  ResolveTCPAddr : String → String → Except GoError Addr
  DialTCP : String → Addr → Except GoError Conn

/-- A call into package `net`, with its arguments. -/
inductive NetOp where
  | ResolveUnixAddr (network address : String)
  | DialUnix (network : String) (raddr : Addr)
  | ResolveTCPAddr (network address : String)
  | DialTCP (network : String) (raddr : Addr)
  | Close (conn : Conn)
  deriving DecidableEq, Repr

/-- The function `createConnectionToSocket`, with the calls into `net` it
made. -/
def createConnectionToSocket (net : Net) (socketAddress : String) :
    Except GoError Conn × List NetOp :=
  match net.ResolveUnixAddr Unix socketAddress with
  | .error err => (.error err, [.ResolveUnixAddr Unix socketAddress])
  | .ok address =>
    match net.DialUnix Unix address with
    | .error err =>
      (.error (.wrap ("could not connect to a Unix socket on address " ++ address.text
          ++ ", err: ") err),
        [.ResolveUnixAddr Unix socketAddress, .DialUnix Unix address])
    | .ok conn => (.ok conn, [.ResolveUnixAddr Unix socketAddress, .DialUnix Unix address])

/-- The function `createConnectionToTcp`, with the calls into `net` it made. -/
def createConnectionToTcp (net : Net) (tcpAddress : String) :
    Except GoError Conn × List NetOp :=
  match net.ResolveTCPAddr TCP tcpAddress with
  | .error err => (.error err, [.ResolveTCPAddr TCP tcpAddress])
  | .ok address =>
    match net.DialTCP TCP address with
    | .error err =>
      (.error (.wrap ("could not connect to a TCP socket on address " ++ address.text
          ++ ", err: ") err),
        [.ResolveTCPAddr TCP tcpAddress, .DialTCP TCP address])
    | .ok conn => (.ok conn, [.ResolveTCPAddr TCP tcpAddress, .DialTCP TCP address])

/-- The function `CreateClientWithJsonCodec`, with the calls into `net` it
made. -/
def CreateClientWithJsonCodec (net : Net) (network address : String) :
    Except GoError Client × List NetOp :=
  if network = "unix" ∨ network = "unixgram" ∨ network = "unixpacket" then
    match createConnectionToSocket net address with
    | (.error err, ops) =>
      (.error (.wrap "error during client creation for Unix socket, err: " err), ops)
    | (.ok conn, ops) => (.ok { codec := createJsonCodec conn, requestId := 0 }, ops)
  else if network = "tcp" ∨ network = "tcp4" ∨ network = "tcp6" then
    match createConnectionToTcp net address with
    | (.error err, ops) =>
      (.error (.wrap "error during client creation for TCP socket, err: " err), ops)
    | (.ok conn, ops) => (.ok { codec := createJsonCodec conn, requestId := 0 }, ops)
  else
    (.error (.text "unsupported network type"), [])

/-! ## `encoding/json` on maps and decoded values -/

/-- Lexicographic order on lists of code points. -/
def codesLt : List Nat → List Nat → Bool
  | _, [] => false
  | [], _ :: _ => true
  | a :: as, b :: bs => a < b || (a == b && codesLt as bs)

/-- The order in which `json.Marshal` sorts the keys of a map: Go compares the
strings bytewise, which on UTF-8 text is the order of the code points. -/
def keyLt (a b : String) : Bool :=
  codesLt (a.data.map Char.toNat) (b.data.map Char.toNat)

/-- The function `strings.ToLower` on the letters `A` to `Z`; the names it is
applied to are the field names of `Response`. -/
def stringsToLower (s : String) : String :=
  ⟨s.data.map (fun c =>
    if 65 ≤ c.toNat ∧ c.toNat ≤ 90 then Char.ofNat (c.toNat + 32) else c)⟩

/-- Store `m` in a member list kept sorted by name; a member of the same name
is replaced.  This is the order in which `json.Marshal` writes a Go map, and an
assignment `jsonMap[k] = v`. -/
def insertMember {α : Type} (m : String × α) : List (String × α) → List (String × α)
  | [] => [m]
  | x :: xs =>
    if keyLt m.1 x.1 then m :: x :: xs
    else if m.1 = x.1 then m :: xs
    else x :: insertMember m xs

/-- The Go map built by assigning the members in order. -/
def mapOf {α : Type} (ms : List (String × α)) : List (String × α) :=
  ms.foldl (fun acc m => insertMember m acc) []

mutual
/-- What `json.Marshal` writes for a value that the decoder stored in an `any`:
objects have become maps, so repeated names are gone and the members are
sorted by name.  Number literals are kept. -/
def reencode : Json → Json
  | .arr es => .arr (reencodeList es)
  | .obj ms => .obj (mapOf (reencodeMembers ms))
  | .null => .null
  | .bool b => .bool b
  | .num lit => .num lit
  | .str s => .str s
/-- The elements of an array, re-encoded. -/
def reencodeList : List Json → List Json
  | [] => []
  | j :: js => reencode j :: reencodeList js
/-- The members of an object, re-encoded. -/
def reencodeMembers : List (String × Json) → List (String × Json)
  | [] => []
  | (k, j) :: ms => (k, reencode j) :: reencodeMembers ms
end

/-- The Go value that the decoder stores in an `any` for a JSON value: nil for
`null`, a `bool`, a `json.Number` (a string type, with `UseNumber`) or a
`float64`, a `string`, a `[]any`, a `map[string]any`. -/
def decodedValue (useNumber : Bool) : Json → Option GoValue
  | .null => none
  | .bool b => some { type := .Bool, json := .ok (.bool b) }
  | .num lit =>
    some { type := if useNumber then .String else .Float64, json := .ok (.num lit) }
  | .str s => some { type := .String, json := .ok (.str s) }
  | .arr es => some { type := .Slice, json := .ok (reencode (.arr es)) }
  | .obj ms => some { type := .Map, json := .ok (reencode (.obj ms)) }

/-- A nil `map[string]any` held in an interface: the interface is not nil, its
kind is `Map`, and `json.Marshal` writes `null` for it. -/
def nilMap : GoValue := { type := .Map, json := .ok .null }

/-- The members of a `map[string]any`, marshalled one by one; a nil interface
is written `null`. -/
def marshalMembers : List (String × Option GoValue) → Except String (List (String × Json))
  | [] => .ok []
  | (k, none) :: rest => (marshalMembers rest).map (fun js => (k, Json.null) :: js)
  | (k, some v) :: rest =>
    match v.json with
    | .error e => .error e
    | .ok j => (marshalMembers rest).map (fun js => (k, j) :: js)

/-- What `json.Marshal` makes of a `map[string]any`: the members sorted by
name, none left out; a nil interface is written `null`. -/
def marshalMap (m : List (String × Option GoValue)) : Except String Json :=
  (marshalMembers (mapOf m)).map Json.obj

/-! ## `encoding/json`: decoding a reply into a `Response` -/

/-- The name under which the decoder looks a member up among the field tags:
letters `A` to `Z` in lower case, and the two letters outside ASCII that
Unicode folds onto `s` and `k`. -/
def foldKey (s : String) : String :=
  ⟨s.data.map (fun c =>
    if 65 ≤ c.toNat ∧ c.toNat ≤ 90 then Char.ofNat (c.toNat + 32)
    else if c.toNat = 0x17F then 's'
    else if c.toNat = 0x212A then 'k'
    else c)⟩

/-- The value of a run of decimal digits; `none` if empty or not all digits. -/
def digitsValue : List Char → Option Nat
  | [] => none
  | ds =>
    ds.foldl (fun acc c =>
      match acc with
      | none => none
      | some n =>
        if 48 ≤ c.toNat ∧ c.toNat ≤ 57 then some (10 * n + (c.toNat - 48)) else none)
      (some 0)

/-- The number literal of a JSON document as a Go `int` (of 64 bits), as
`strconv.ParseInt` reads it: a fraction, an exponent or a value out of range
is refused. -/
def parseInt (lit : String) : Option Int :=
  let v : Option Int :=
    match lit.data with
    | '-' :: ds => (digitsValue ds).map (fun n => -(n : Int))
    | ds => (digitsValue ds).map (fun n => (n : Int))
  match v with
  | some n => if -(2 ^ 63 : Int) ≤ n ∧ n < (2 ^ 63 : Int) then some n else none
  | none => none

/-- The error of the decoder when a member does not fit its field. -/
def unmarshalTypeError (field : String) : GoError :=
  .text ("json: cannot unmarshal value into Go struct field " ++ field)

/-- The members of an `error` object, stored one by one into an `Error`. -/
def decodeErrorFields (e : Spdk.Error) : List (String × Json) → Except GoError Spdk.Error
  | [] => .ok e
  | (k, v) :: ms =>
    if foldKey k = "code" then
      match v with
      | .null => decodeErrorFields e ms
      | .num lit =>
        match parseInt lit with
        | some n => decodeErrorFields { e with Code := n } ms
        | none => .error (unmarshalTypeError "Error.code")
      | _ => .error (unmarshalTypeError "Error.code")
    else if foldKey k = "message" then
      match v with
      | .null => decodeErrorFields e ms
      | .str m => decodeErrorFields { e with Message := m } ms
      | _ => .error (unmarshalTypeError "Error.message")
    else if foldKey k = "data" then
      decodeErrorFields { e with Data := decodedValue false v } ms
    else decodeErrorFields e ms

/-- The members of a reply, stored one by one into a `Response`. -/
def decodeResponseFields (r : Response) : List (String × Json) → Except GoError Response
  | [] => .ok r
  | (k, v) :: ms =>
    if foldKey k = "jsonrpc" then
      match v with
      | .null => decodeResponseFields r ms
      | .str s => decodeResponseFields { r with Version := s } ms
      | _ => .error (unmarshalTypeError "Response.jsonrpc")
    else if foldKey k = "error" then
      match v with
      | .null => decodeResponseFields { r with Error := none } ms
      | .obj es =>
        match decodeErrorFields (r.Error.getD { Code := 0, Message := "", Data := none }) es with
        | .error err => .error err
        | .ok e => decodeResponseFields { r with Error := some e } ms
      | _ => .error (unmarshalTypeError "Response.error")
    else if foldKey k = "result" then
      decodeResponseFields { r with Result := decodedValue false v } ms
    else if foldKey k = "id" then
      match v with
      | .null => decodeResponseFields r ms
      | .num lit =>
        match parseInt lit with
        | some n => decodeResponseFields { r with ID := n } ms
        | none => .error (unmarshalTypeError "Response.id")
      | _ => .error (unmarshalTypeError "Response.id")
    else decodeResponseFields r ms

/-- What `Decoder.Decode(response)` makes of a JSON value, `response` being
the zero `Response` as in `Call`. -/
def decodeResponse : Json → Except GoError Response
  | .null => .ok { Version := "", Error := none, Result := none, ID := 0 }
  | .obj ms => decodeResponseFields { Version := "", Error := none, Result := none, ID := 0 } ms
  | _ => .error (.text "json: cannot unmarshal value into Go value of type client.Response")

/-! ## The boundary adapter (`clientIntegration.go`) -/

/-- The status `InvalidParameterError`. -/
def InvalidParameterError : Nat := 1

/-- The status `ConnectionError`. -/
def ConnectionError : Nat := 2

/-- The status `JsonRpcCallError`. -/
def JsonRpcCallError : Nat := 3

/-- The status `InvalidResponseError`. -/
def InvalidResponseError : Nat := 4

/-- The text behind `jsonPtr`, as the decoder reads it: text that is not JSON
(with the error the decoder reports), or the first JSON value of the text. -/
inductive RequestText where
  | malformed (err : GoError)
  | value (j : Json)

/-- The call `jsonDecoder.Decode(&jsonMap)` on a nil `map[string]any`: an
object fills the map, `null` leaves it nil, any other value is an error. -/
def decodeJsonMap : RequestText → Except GoError (List (String × Json))
  | .malformed err => .error err
  | .value .null => .ok []
  | .value (.obj ms) => .ok ms
  | .value (.bool _) =>
    .error (.text "json: cannot unmarshal bool into Go value of type map[string]interface \x7b\x7d")
  | .value (.num _) =>
    .error (.text "json: cannot unmarshal number into Go value of type map[string]interface \x7b\x7d")
  | .value (.str _) =>
    .error (.text "json: cannot unmarshal string into Go value of type map[string]interface \x7b\x7d")
  | .value (.arr _) =>
    .error (.text "json: cannot unmarshal array into Go value of type map[string]interface \x7b\x7d")

/-- The index expression `jsonMap[k]`: the member stored last under `k`; the
nil interface when there is none or when it is `null`. -/
def mapIndex (jsonMap : List (String × Json)) (k : String) : Option Json :=
  match Json.member k (.obj jsonMap) with
  | some .null => none
  | r => r

/-- The name of the dynamic type of a decoded value, as a panic prints it. -/
def dynamicTypeName : Option Json → String
  | none => "nil"
  | some .null => "nil"
  | some (.bool _) => "bool"
  | some (.num _) => "json.Number"
  | some (.str _) => "string"
  | some (.arr _) => "[]interface \x7b\x7d"
  | some (.obj _) => "map[string]interface \x7b\x7d"

/-- The type assertion `x.(string)`; the error is the text of the panic. -/
def assertString (x : Option Json) : Except String String :=
  match x with
  | some (.str s) => .ok s
  | _ => .error ("interface conversion: interface \x7b\x7d is " ++ dynamicTypeName x ++ ", not string")

/-- The type assertion `x.(map[string]any)`, giving the members of the map;
the error is the text of the panic. -/
def assertMap (x : Option Json) : Except String (List (String × Json)) :=
  match x with
  | some (.obj ms) => .ok (mapOf ms)
  | _ =>
    .error ("interface conversion: interface \x7b\x7d is " ++ dynamicTypeName x
      ++ ", not map[string]interface \x7b\x7d")

/-- A `map[string]any` with the given members, held in an interface. -/
def mapValue (ms : List (String × Json)) : GoValue :=
  { type := .Map, json := .ok (reencode (.obj ms)) }

/-- The fields of `Response` in the order of the declaration, by name, each
with `values.Field(i).Interface()`. -/
def responseFields (resp : Response) : List (String × Option GoValue) :=
  [ ("Version", some { type := .String, json := .ok (.str resp.Version) }),
    ("Error", some { type := .Pointer .Struct,
                     json := match resp.Error with
                       | none => .ok .null
                       | some e => marshalError e }),
    ("Result", resp.Result),
    ("ID", some { type := .Int, json := .ok (.num (toString resp.ID)) }) ]

/-- The name `reflect.TypeOf(resp.Error).Elem().Name()`: the record that
`Response.Error` points to is declared as `Error`. -/
def errorFieldName : String := "Error"

/-- The map the adapter builds when result and error are both nil: every
field of the response but the one named like the error type, under its name
in lower case. -/
def responseMap (resp : Response) : List (String × Option GoValue) :=
  mapOf (((responseFields resp).filter (fun f => f.1 ≠ errorFieldName)).map
    (fun f => (stringsToLower f.1, f.2)))

/-- What `spdk_gorpc_call` ends with: the pair it returns (the buffer is nil
or holds a JSON document), or a panic. -/
inductive AdapterResult where
  | returned (response : Option Json) (status : Nat)
  | panicked (msg : String)

/-- What one invocation of `spdk_gorpc_call` did: how it ended, its calls into
`net`, and the request tree its client handed to the connection. -/
structure AdapterOutcome where
  result : AdapterResult
  ops : List NetOp
  wire : Option Json

/-- The function `spdk_gorpc_call`.  `net` and `peer` are the network and the
server at `location`.  The calls to `log.Printf` are left out. -/
def spdk_gorpc_call (net : Net) (peer : Stream) (jsonStr : RequestText)
    (location : String) : AdapterOutcome :=
  match decodeJsonMap jsonStr with
  | .error _ => { result := .returned none InvalidParameterError, ops := [], wire := none }
  | .ok jsonMap =>
    match CreateClientWithJsonCodec net Unix location with
    | (.error _, ops) => { result := .returned none ConnectionError, ops := ops, wire := none }
    | (.ok rpcClient, ops) =>
      -- `defer rpcClient.Close()` runs on every path below
      let ops := ops ++ [.Close rpcClient.Close]
      match assertString (mapIndex jsonMap "method") with
      | .error p => { result := .panicked p, ops := ops, wire := none }
      | .ok method =>
        match assertMap (mapIndex jsonMap "params") with
        | .error p => { result := .panicked p, ops := ops, wire := none }
        | .ok members =>
          let params : GoValue := if members.length = 0 then nilMap else mapValue members
          let call := rpcClient.Call peer method (some params)
          match call.result with
          | .error _ =>
            { result := .returned none JsonRpcCallError, ops := ops, wire := call.wire }
          | .ok resp =>
            let encodedResp :=
              if resp.Result.isNone ∧ resp.Error.isNone then marshalMap (responseMap resp)
              else marshalResponse resp
            match encodedResp with
            | .error _ =>
              { result := .returned none InvalidResponseError, ops := ops, wire := call.wire }
            | .ok encoded =>
              { result := .returned (some encoded) 0, ops := ops, wire := call.wire }


/-! ## Sequences of calls -/

/-- The arguments of one invocation of `Call`, with the peer it meets. -/
structure CallInput where
  peer : Stream
  method : String
  params : Option GoValue

/-- Successive invocations of `Call` on one client. -/
def runCalls (c : Client) : List CallInput → List CallOutcome
  | [] => []
  | i :: rest =>
    let o := c.Call i.peer i.method i.params
    o :: runCalls o.client rest

/-! ## Parameter validation -/

/-- The kinds of the scalar types: booleans, numbers and strings. -/
def scalarKinds : List Kind :=
  [.Bool, .Int, .Int8, .Int16, .Int32, .Int64, .Uint, .Uint8, .Uint16, .Uint32, .Uint64,
   .Uintptr, .Float32, .Float64, .Complex64, .Complex128, .String]

/-- The kinds of the container types that `verifyRequestParamsType` lets pass. -/
def containerKinds : List Kind := [.Array, .Map, .Slice, .Struct]

/-- The error `Call` returns when the ids differ. -/
def idMismatchError (method : String) : GoError :=
  .text ("error mismatch request and response IDs for " ++ method ++ " method")

/-- The error `Call` returns for a reply that carries the error object `e`. -/
def remoteError (method : String) (e : Spdk.Error) : GoError :=
  .wrap ("error received for " ++ method ++ " method, err: ") (.rpc e)

/-! ## Inputs used at concrete points -/

/-- A connection to the default socket of the SPDK target. -/
def spdkSock : Conn := { network := "unix", address := "/var/tmp/spdk.sock" }

/-- A client as `CreateClientWithJsonCodec` returns it: the counter at zero. -/
def freshClient : Client := { codec := createJsonCodec spdkSock, requestId := 0 }

/-- A network on which every resolution and every dial succeeds. -/
def reachableNet : Net :=
  { ResolveUnixAddr := fun _ a => .ok ⟨a⟩
    DialUnix := fun n a => .ok ⟨n, a.text⟩
    ResolveTCPAddr := fun _ a => .ok ⟨a⟩
    DialTCP := fun n a => .ok ⟨n, a.text⟩ }

/-- A network on which no socket can be reached. -/
def unreachableNet : Net :=
  { ResolveUnixAddr := fun _ a => .ok ⟨a⟩
    DialUnix := fun _ _ => .error (.text "connect: no such file or directory")
    ResolveTCPAddr := fun _ a => .ok ⟨a⟩
    DialTCP := fun _ _ => .error (.text "connect: connection refused") }

/-- A peer that takes the request and answers with the JSON value `reply`. -/
def replying (reply : Json) : Stream := { writeErr := none, decoded := decodeResponse reply }

/-- The reply `{"jsonrpc":"2.0","id":1,"result":[]}`. -/
def emptyListReply : Json :=
  .obj [("jsonrpc", .str "2.0"), ("id", .num "1"), ("result", .arr [])]

/-- The reply `{"jsonrpc":"2.0","id":1,"result":null}`. -/
def nullResultReply : Json :=
  .obj [("jsonrpc", .str "2.0"), ("id", .num "1"), ("result", .null)]

/-- The reply `{"jsonrpc":"2.0","id":1,"error":{"code":-32601,"message":"Method
not found"},"result":true}`: an error object, a result too, and the id of the
first request. -/
def errorReply : Json :=
  .obj [("jsonrpc", .str "2.0"), ("id", .num "1"),
    ("error", .obj [("code", .num "-32601"), ("message", .str "Method not found")]),
    ("result", .bool true)]

/-- The reply `{"jsonrpc":"2.0","id":null,"error":{"code":-32700,"message":"Parse
error"}}`: an error object under the id `null`, which the decoder leaves at
zero. -/
def parseErrorReply : Json :=
  .obj [("jsonrpc", .str "2.0"), ("id", .null),
    ("error", .obj [("code", .num "-32700"), ("message", .str "Parse error")])]

/-- The reply `{"jsonrpc":"2.0","id":2,"result":[]}`: the id is not that of the
first request. -/
def strayReply : Json :=
  .obj [("jsonrpc", .str "2.0"), ("id", .num "2"), ("result", .arr [])]

/-- The request text `{"method":"bdev_get_bdevs","params":{}}`. -/
def emptyParamsText : RequestText :=
  .value (.obj [("method", .str "bdev_get_bdevs"), ("params", .obj [])])

/-- The request text `{"params":{}}`: no method. -/
def noMethodText : RequestText := .value (.obj [("params", .obj [])])

/-- The request text `{"method":"bdev_get_bdevs"}`: no params. -/
def noParamsText : RequestText := .value (.obj [("method", .str "bdev_get_bdevs")])

/-! ## Theorems -/

theorem typeKind_eq_Pointer (t : GoType) (h : typeKind t = Kind.Pointer) :
    ∃ e, t = GoType.Pointer e := by
  cases t <;> simp [typeKind] at h
  exact ⟨_, rfl⟩

theorem verify_container (v : GoValue) (h : typeKind v.type ∈ containerKinds) :
    verifyRequestParamsType (some v) = none := by
  have hne : typeKind v.type ≠ Kind.Pointer := by
    intro hp; rw [hp] at h; simp [containerKinds] at h
  simp only [verifyRequestParamsType, reflectTypeOf, if_neg hne]
  simp only [containerKinds, List.mem_cons, List.mem_singleton, List.not_mem_nil, or_false] at h
  rcases h with h | h | h | h <;> rw [h]

theorem verify_pointer_container (v : GoValue) (e : GoType) (ht : v.type = GoType.Pointer e)
    (h : typeKind e ∈ containerKinds) : verifyRequestParamsType (some v) = none := by
  have h1 : typeKind (GoType.Pointer e) = Kind.Pointer := rfl
  have h2 : typeElem (GoType.Pointer e) = e := rfl
  simp only [verifyRequestParamsType, reflectTypeOf, ht, h1, h2, if_true]
  simp only [containerKinds, List.mem_cons, List.mem_singleton, List.not_mem_nil, or_false] at h
  rcases h with h | h | h | h <;> rw [h]

theorem verify_scalar (v : GoValue) (h : typeKind v.type ∈ scalarKinds) :
    verifyRequestParamsType (some v)
      = some (.text ("param type " ++ kindString (typeKind v.type) ++ " is not supported")) := by
  have hne : typeKind v.type ≠ Kind.Pointer := by
    intro hp; rw [hp] at h; simp [scalarKinds] at h
  simp only [verifyRequestParamsType, reflectTypeOf, if_neg hne]
  simp only [scalarKinds, List.mem_cons, List.mem_singleton, List.not_mem_nil, or_false] at h
  rcases h with h | h | h | h | h | h | h | h | h | h | h | h | h | h | h | h | h <;> rw [h]

/-- C4: for every method, id and params that is nil, an array, a map, a slice,
a struct or a pointer to a struct, `createRequest` returns no error and the
request `{Version: "2.0", Method: method, Params: params, ID: id}`, the params
stored as given. -/
theorem createRequest_container (method : String) (requestId : Nat)
    (params : Option GoValue)
    (h : params = none ∨ ∃ v, params = some v ∧
      (typeKind v.type = Kind.Array ∨ typeKind v.type = Kind.Map ∨
        typeKind v.type = Kind.Slice ∨ typeKind v.type = Kind.Struct ∨
        v.type = GoType.Pointer GoType.Struct)) :
    createRequest method requestId params
      = .ok { Version := "2.0", Method := method, Params := params, ID := requestId } := by
  have hv : verifyRequestParamsType params = none := by
    rcases h with h | ⟨v, hv, hk⟩
    · rw [h]; rfl
    · rw [hv]
      rcases hk with hk | hk | hk | hk | hk
      · exact verify_container v (by rw [hk]; simp [containerKinds])
      · exact verify_container v (by rw [hk]; simp [containerKinds])
      · exact verify_container v (by rw [hk]; simp [containerKinds])
      · exact verify_container v (by rw [hk]; simp [containerKinds])
      · exact verify_pointer_container v _ hk (by simp [containerKinds, typeKind])
  simp only [createRequest, hv, jsonRPCVersion]

/-- C4, at the pointer to an empty struct of `Test_createRequest`, with the
method and id of that test. -/
theorem createRequest_container_witness :
    createRequest "some method" 17
        (some { type := GoType.Pointer GoType.Struct, json := .ok (.obj []) })
      = .ok { Version := "2.0", Method := "some method",
              Params := some { type := GoType.Pointer GoType.Struct, json := .ok (.obj []) },
              ID := 17 } :=
  createRequest_container "some method" 17 _ (Or.inr ⟨_, rfl, Or.inr (Or.inr (Or.inr (Or.inr rfl)))⟩)

/-- C5: for every params value of a scalar type (a string, a number or a
boolean), `createRequest` returns no request but an error, and `Call` returns
an error and no response, having handed nothing to the encoder: nothing is
written to the stream. -/
theorem scalar_params_rejected (c : Client) (s : Stream) (method : String) (requestId : Nat)
    (v : GoValue) (h : typeKind v.type ∈ scalarKinds) :
    createRequest method requestId (some v)
        = .error (.wrap ("error during request creation for " ++ method ++ " method, err: ")
            (.text ("param type " ++ kindString (typeKind v.type) ++ " is not supported")))
      ∧ (c.Call s method (some v)).wire = none
      ∧ (c.Call s method (some v)).result
          = .error (.wrap ("error during client call for " ++ method ++ " method, err: ")
              (.wrap ("error during request creation for " ++ method ++ " method, err: ")
                (.text ("param type " ++ kindString (typeKind v.type)
                  ++ " is not supported")))) := by
  have hc : ∀ id, createRequest method id (some v)
      = .error (.wrap ("error during request creation for " ++ method ++ " method, err: ")
          (.text ("param type " ++ kindString (typeKind v.type) ++ " is not supported"))) := by
    intro id
    simp only [createRequest, verify_scalar v h]
  refine ⟨hc _, ?_, ?_⟩
  · simp only [Client.Call, hc]
  · simp only [Client.Call, hc]

/-- C5, at the string of `Test_createRequest`. -/
theorem scalar_params_rejected_witness :
    typeKind (GoValue.mk GoType.String (.ok (.str "invalidParam"))).type ∈ scalarKinds
      ∧ (Client.Call { codec := { conn := ⟨"unix", "/var/tmp/spdk.sock"⟩ }, requestId := 0 }
          { writeErr := none, decoded := .error (.text "EOF") } "some method"
          (some (GoValue.mk GoType.String (.ok (.str "invalidParam"))))).wire = none :=
  ⟨by decide, (scalar_params_rejected _ _ "some method" 17 _ (by decide)).2.1⟩

/-- What `Call` does once the request is built and encoded and a reply is
decoded. -/
theorem Call_decoded (c : Client) (s : Stream) (method : String) (params : Option GoValue)
    (request : Request) (response : Response)
    (hreq : createRequest method ((c.requestId + 1) % 2 ^ 64) params = .ok request)
    (henc : (encodeRequest s request).2 = none)
    (hdec : s.decoded = .ok response) :
    (c.Call s method params).result =
      if request.ID ≠ uint64 response.ID then .error (idMismatchError method)
      else match response.Error with
        | some e => .error (remoteError method e)
        | none => .ok response := by
  rcases hw : encodeRequest s request with ⟨w, e⟩
  rw [hw] at henc
  simp only at henc
  subst henc
  simp only [Client.Call, hreq, hw, hdec, idMismatchError, remoteError]
  split
  · rfl
  · split <;> rfl

/-- C2: whenever the request was encoded and a response was decoded, and the
id of the response, converted to `uint64`, differs from the id of the request,
`Call` returns no response and the id-mismatch error, whatever the fields
`Result` and `Error` of the response hold. -/
theorem Call_id_mismatch (c : Client) (s : Stream) (method : String)
    (params : Option GoValue) (request : Request) (response : Response)
    (hreq : createRequest method ((c.requestId + 1) % 2 ^ 64) params = .ok request)
    (henc : (encodeRequest s request).2 = none)
    (hdec : s.decoded = .ok response)
    (hid : uint64 response.ID ≠ request.ID) :
    (c.Call s method params).result
      = .error (.text ("error mismatch request and response IDs for " ++ method
          ++ " method")) := by
  rw [Call_decoded c s method params request response hreq henc hdec]
  rw [if_pos (fun h => hid h.symm)]
  rfl


/-- C2, at the first call of a fresh client answered under the id 2. -/
theorem Call_id_mismatch_witness :
    createRequest "bdev_get_bdevs" ((freshClient.requestId + 1) % 2 ^ 64) none
        = .ok { Version := "2.0", Method := "bdev_get_bdevs", Params := none, ID := 1 }
      ∧ (freshClient.Call (replying strayReply) "bdev_get_bdevs" none).result
          = .error (.text "error mismatch request and response IDs for bdev_get_bdevs method") :=
  ⟨rfl, Call_id_mismatch freshClient (replying strayReply) "bdev_get_bdevs" none
    { Version := "2.0", Method := "bdev_get_bdevs", Params := none, ID := 1 }
    { Version := "2.0", Error := none,
      Result := some { type := .Slice, json := .ok (.arr []) }, ID := 2 }
    rfl rfl rfl (by decide)⟩


/-- C1, refuted as stated: the reply `parseErrorReply` carries an error object,
yet the first call of a fresh client returns the id-mismatch error, which wraps
nothing: the ids are compared before the error object is looked at. -/
theorem Call_remote_error_counterexample :
    decodeResponse parseErrorReply
        = .ok { Version := "2.0",
                Error := some { Code := -32700, Message := "Parse error", Data := none },
                Result := none, ID := 0 }
      ∧ (freshClient.Call (replying parseErrorReply) "bdev_get_bdevs" none).result
          = .error (.text "error mismatch request and response IDs for bdev_get_bdevs method")
      ∧ GoError.Unwrap
          (.text "error mismatch request and response IDs for bdev_get_bdevs method") = none :=
  ⟨rfl, rfl, rfl⟩

/-- C1, amended: whenever the request was encoded and the decoded response
carries the id of the request and a non-null error object, `Call` returns no
response and an error that wraps that very error object, so with its code and
message as received, whether or not the response also carries a result. -/
theorem Call_remote_error (c : Client) (s : Stream) (method : String)
    (params : Option GoValue) (request : Request) (response : Response) (e : Spdk.Error)
    (hreq : createRequest method ((c.requestId + 1) % 2 ^ 64) params = .ok request)
    (henc : (encodeRequest s request).2 = none)
    (hdec : s.decoded = .ok response)
    (hid : uint64 response.ID = request.ID)
    (herr : response.Error = some e) :
    ∃ err, (c.Call s method params).result = .error err
      ∧ err.Unwrap = some (.rpc e)
      ∧ err.message = "error received for " ++ method ++ " method, err: "
          ++ ("Code=" ++ toString e.Code ++ " Msg=" ++ e.Message) := by
  refine ⟨remoteError method e, ?_, rfl, rfl⟩
  rw [Call_decoded c s method params request response hreq henc hdec]
  rw [if_neg (fun h => h hid.symm), herr]

/-- C1, amended, at the first call of a fresh client answered by `errorReply`,
which carries the id 1, an error object and a result. -/
theorem Call_remote_error_witness :
    decodeResponse errorReply
        = .ok { Version := "2.0",
                Error := some { Code := -32601, Message := "Method not found", Data := none },
                Result := some { type := .Bool, json := .ok (.bool true) }, ID := 1 }
      ∧ ∃ err, (freshClient.Call (replying errorReply) "bdev_get_bdevs" none).result
            = .error err
          ∧ err.Unwrap
            = some (.rpc { Code := -32601, Message := "Method not found", Data := none })
          ∧ err.message = "error received for " ++ "bdev_get_bdevs" ++ " method, err: "
              ++ ("Code=" ++ toString (-32601 : Int) ++ " Msg=" ++ "Method not found") :=
  ⟨rfl, Call_remote_error freshClient (replying errorReply) "bdev_get_bdevs" none
    { Version := "2.0", Method := "bdev_get_bdevs", Params := none, ID := 1 }
    { Version := "2.0",
      Error := some { Code := -32601, Message := "Method not found", Data := none },
      Result := some { type := .Bool, json := .ok (.bool true) }, ID := 1 }
    { Code := -32601, Message := "Method not found", Data := none }
    rfl rfl rfl (by decide) rfl⟩

/-- C6: whenever the params pass validation, the request is encoded, and the
decoded response carries the id of the request and no error object, `Call`
returns no error and the decoded response as it is, so also a result that is
nil.  On a fresh client, `bdev_get_bdevs` with nil params answered by
`{"jsonrpc":"2.0","id":1,"result":[]}` returns the response whose result is the
empty slice; answered by `{"jsonrpc":"2.0","id":1,"result":null}` it returns
the response whose result is nil. -/
theorem Call_success :
    (∀ (c : Client) (s : Stream) (method : String) (params : Option GoValue)
        (request : Request) (response : Response),
        createRequest method ((c.requestId + 1) % 2 ^ 64) params = .ok request →
        (encodeRequest s request).2 = none →
        s.decoded = .ok response →
        uint64 response.ID = request.ID →
        response.Error = none →
        (c.Call s method params).result = .ok response)
      ∧ (freshClient.Call (replying emptyListReply) "bdev_get_bdevs" none).result
          = .ok { Version := "2.0", Error := none,
                  Result := some { type := .Slice, json := .ok (.arr []) }, ID := 1 }
      ∧ (freshClient.Call (replying nullResultReply) "bdev_get_bdevs" none).result
          = .ok { Version := "2.0", Error := none, Result := none, ID := 1 } := by
  refine ⟨?_, rfl, rfl⟩
  intro c s method params request response hreq henc hdec hid herr
  rw [Call_decoded c s method params request response hreq henc hdec]
  rw [if_neg (fun h => h hid.symm), herr]

/-- C6, at the second call of a client, with a map as params and a reply
under the id 2. -/
theorem Call_success_witness :
    (Client.Call { codec := createJsonCodec spdkSock, requestId := 1 }
        (replying strayReply) "bdev_get_bdevs" (some (mapValue [("name", .str "Malloc0")]))).result
      = .ok { Version := "2.0", Error := none,
              Result := some { type := .Slice, json := .ok (.arr []) }, ID := 2 } :=
  Call_success.1 { codec := createJsonCodec spdkSock, requestId := 1 }
    (replying strayReply) "bdev_get_bdevs" (some (mapValue [("name", .str "Malloc0")]))
    { Version := "2.0", Method := "bdev_get_bdevs",
      Params := some (mapValue [("name", .str "Malloc0")]), ID := 2 }
    { Version := "2.0", Error := none,
      Result := some { type := .Slice, json := .ok (.arr []) }, ID := 2 }
    rfl rfl rfl (by decide) rfl


/-! ### The counter -/

theorem Call_id (c : Client) (s : Stream) (method : String) (params : Option GoValue) :
    (c.Call s method params).id = (c.requestId + 1) % 2 ^ 64
      ∧ (c.Call s method params).client.requestId = (c.requestId + 1) % 2 ^ 64 := by
  unfold Client.Call
  dsimp only
  repeat' split
  all_goals exact ⟨rfl, rfl⟩

theorem createRequest_ID (method : String) (requestId : Nat) (params : Option GoValue)
    (request : Request) (h : createRequest method requestId params = .ok request) :
    request.ID = requestId := by
  unfold createRequest at h
  split at h
  · cases h
  · cases h; rfl

theorem Call_wire (c : Client) (s : Stream) (method : String) (params : Option GoValue)
    (j : Json) (h : (c.Call s method params).wire = some j) :
    ∃ request, createRequest method ((c.requestId + 1) % 2 ^ 64) params = .ok request
      ∧ marshalRequest request = .ok j := by
  unfold Client.Call at h
  dsimp only at h
  cases hc : createRequest method ((c.requestId + 1) % 2 ^ 64) params with
  | error e => rw [hc] at h; simp at h
  | ok request =>
    rw [hc] at h
    dsimp only at h
    refine ⟨request, rfl, ?_⟩
    unfold encodeRequest at h
    cases hm : marshalRequest request with
    | error e => rw [hm] at h; simp at h
    | ok w =>
      rw [hm] at h
      dsimp only at h
      cases hwe : s.writeErr with
      | some e =>
        rw [hwe] at h
        exact congrArg Except.ok (Option.some.inj h)
      | none =>
        rw [hwe] at h
        dsimp only at h
        have hw : some w = some j := by
          rw [← h]
          repeat' split
          all_goals rfl
        exact congrArg Except.ok (Option.some.inj hw)

theorem marshalRequest_id (req : Request) (j : Json) (h0 : req.ID ≠ 0)
    (h : marshalRequest req = .ok j) :
    Json.member "id" j = some (.num (toString req.ID)) := by
  unfold marshalRequest at h
  simp only [if_neg h0] at h
  cases hp : req.Params with
  | none =>
    simp only [hp] at h
    cases h
    simp [Json.member]
  | some v =>
    simp only [hp] at h
    cases hj : v.json with
    | error e => simp [hj] at h
    | ok w =>
      simp only [hj] at h
      cases h
      simp [Json.member]

theorem fresh_requestId (net : Net) (network address : String) (c : Client)
    (h : (CreateClientWithJsonCodec net network address).1 = .ok c) : c.requestId = 0 := by
  unfold CreateClientWithJsonCodec at h
  split at h
  · split at h
    · cases h
    · cases h; rfl
  · split at h
    · split at h
      · cases h
      · cases h; rfl
    · cases h

theorem runCalls_id (inputs : List CallInput) :
    ∀ (c : Client) (i : Nat), i < inputs.length → c.requestId + i + 1 < 2 ^ 64 →
      ∃ o, (runCalls c inputs)[i]? = some o ∧ o.id = c.requestId + i + 1
        ∧ o.client.requestId = c.requestId + i + 1
        ∧ ∀ j, o.wire = some j → Json.member "id" j = some (.num (toString (c.requestId + i + 1))) := by
  induction inputs with
  | nil => intro c i hi; simp at hi
  | cons x rest ih =>
    intro c i hi hlt
    obtain ⟨hid, hcl⟩ := Call_id c x.peer x.method x.params
    cases i with
    | zero =>
      have hmod : (c.requestId + 1) % 2 ^ 64 = c.requestId + 1 := Nat.mod_eq_of_lt (by omega)
      refine ⟨c.Call x.peer x.method x.params, by simp [runCalls], ?_, ?_, ?_⟩
      · rw [hid, hmod]
      · rw [hcl, hmod]
      · intro j hj
        obtain ⟨request, hreq, hm⟩ := Call_wire c x.peer x.method x.params j hj
        have hrid := createRequest_ID _ _ _ _ hreq
        rw [hmod] at hrid
        have := marshalRequest_id request j (by rw [hrid]; omega) hm
        rw [hrid] at this
        exact this
    | succ i =>
      have hmod : (c.requestId + 1) % 2 ^ 64 = c.requestId + 1 := Nat.mod_eq_of_lt (by omega)
      have hi2 : i < rest.length := by simpa using hi
      obtain ⟨o, ho, h1, h2, h3⟩ := ih (c.Call x.peer x.method x.params).client i hi2
        (by rw [hcl, hmod]; omega)
      rw [hcl, hmod] at h1 h2 h3
      have e : c.requestId + 1 + i + 1 = c.requestId + (i + 1) + 1 := by omega
      rw [e] at h1 h2 h3
      exact ⟨o, by simpa [runCalls] using ho, h1, h2, h3⟩

/-- C3: on a client as `CreateClientWithJsonCodec` returns it, for every k with
1 ≤ k < 2^64, the k-th invocation of `Call` draws the id k and leaves the
counter at k, whatever the arguments and the peers of the invocations so far
and however they ended; when it hands a request to the connection, that
request carries `"id": k`. -/
theorem kth_call_uses_id_k (net : Net) (network address : String) (c : Client)
    (hfresh : (CreateClientWithJsonCodec net network address).1 = .ok c)
    (inputs : List CallInput) (k : Nat) (h1 : 1 ≤ k) (h2 : k < 2 ^ 64)
    (hk : k ≤ inputs.length) :
    ∃ o, (runCalls c inputs)[k - 1]? = some o ∧ o.id = k ∧ o.client.requestId = k
      ∧ ∀ j, o.wire = some j → Json.member "id" j = some (.num (toString k)) := by
  have h0 := fresh_requestId net network address c hfresh
  obtain ⟨o, ho, ha, hb, hc⟩ := runCalls_id inputs c (k - 1) (by omega) (by rw [h0]; omega)
  have e : c.requestId + (k - 1) + 1 = k := by rw [h0]; omega
  rw [e] at ha hb hc
  exact ⟨o, ho, ha, hb, hc⟩


/-- C3, at the third of three calls on a fresh client: the first failed the
validation of its params, the second succeeded, the third gets no reply. -/
theorem kth_call_uses_id_k_witness :
    ∃ o, (runCalls freshClient
          [ { peer := replying emptyListReply, method := "a", params := some (GoValue.mk .String (.ok (.str "x"))) },
            { peer := replying strayReply, method := "b", params := none },
            { peer := { writeErr := none, decoded := .error (.text "EOF") }, method := "c",
              params := none } ])[3 - 1]? = some o
      ∧ o.id = 3 ∧ o.client.requestId = 3
      ∧ ∀ j, o.wire = some j → Json.member "id" j = some (.num (toString 3)) :=
  kth_call_uses_id_k reachableNet "unix" "/var/tmp/spdk.sock" freshClient rfl _ 3
    (by decide) (by norm_num) (by decide)

/-! ### The adapter -/

theorem Call_ok_decoded (c : Client) (s : Stream) (method : String)
    (params : Option GoValue) (resp : Response)
    (h : (c.Call s method params).result = .ok resp) : s.decoded = .ok resp := by
  unfold Client.Call at h
  dsimp only at h
  cases hc : createRequest method ((c.requestId + 1) % 2 ^ 64) params with
  | error e => rw [hc] at h; simp at h
  | ok request =>
    rw [hc] at h
    dsimp only at h
    rcases he : encodeRequest s request with ⟨w, _ | e⟩
    · rw [he] at h
      dsimp only at h
      cases hd : s.decoded with
      | error e => rw [hd] at h; simp at h
      | ok response =>
        rw [hd] at h
        dsimp only at h
        split at h
        · simp at h
        · split at h
          · simp at h
          · simp only [Except.ok.injEq] at h
            rw [h]
    · rw [he] at h
      simp at h

theorem marshalMap_responseMap (resp : Response) (h : resp.Result = none) :
    marshalMap (responseMap resp)
      = .ok (.obj [("id", .num (toString resp.ID)), ("result", .null),
          ("version", .str resp.Version)]) := by
  cases resp
  simp only at h
  subst h
  rfl

/-- C7, the code at the request text `{"method":"bdev_get_bdevs","params":{}}`:
the adapter passes a nil map, which in the `any` of `Call` is not a nil
interface, so `omitempty` keeps the member and the request handed to the
connection is `{"jsonrpc":"2.0","method":"bdev_get_bdevs","params":null,"id":1}`. -/
theorem empty_params_wire :
    (spdk_gorpc_call reachableNet (replying emptyListReply) emptyParamsText
        "/var/tmp/spdk.sock").wire
      = some (.obj [("jsonrpc", .str "2.0"), ("method", .str "bdev_get_bdevs"),
          ("params", .null), ("id", .num "1")])
    ∧ ((spdk_gorpc_call reachableNet (replying emptyListReply) emptyParamsText
        "/var/tmp/spdk.sock").wire.map Json.keys)
      = some ["jsonrpc", "method", "params", "id"] :=
  ⟨rfl, rfl⟩

/-- C8: whenever the adapter returns status 0 and the response its call
decoded has a nil result and no error object, the buffer holds the JSON object
with exactly the members `id`, `result` and `version` (no `error`), where
`result` is `null`, `id` the id and `version` the version of the response. -/
theorem null_result_envelope (net : Net) (peer : Stream) (jsonStr : RequestText)
    (location : String) (resp : Response) (buf : Option Json)
    (hret : (spdk_gorpc_call net peer jsonStr location).result = .returned buf 0)
    (hdec : peer.decoded = .ok resp)
    (hres : resp.Result = none) (herr : resp.Error = none) :
    buf = some (.obj [("id", .num (toString resp.ID)), ("result", .null),
      ("version", .str resp.Version)]) := by
  unfold spdk_gorpc_call at hret
  split at hret
  · simp [InvalidParameterError] at hret
  · split at hret
    · simp [ConnectionError] at hret
    · dsimp only at hret
      split at hret
      · simp at hret
      · split at hret
        · simp at hret
        · split at hret
          · simp [JsonRpcCallError] at hret
          · rename_i r hr
            have hd := Call_ok_decoded _ _ _ _ _ hr
            rw [hdec] at hd
            cases hd
            simp only [hres, herr, Option.isNone_none, and_self, if_true,
              marshalMap_responseMap resp hres] at hret
            simp only [AdapterResult.returned.injEq, and_true] at hret
            exact hret.symm

/-- C8, at `{"method":"bdev_get_bdevs","params":{}}` answered by
`{"jsonrpc":"2.0","id":1,"result":null}`: the buffer holds
`{"id":1,"result":null,"version":"2.0"}`. -/
theorem null_result_envelope_witness :
    (spdk_gorpc_call reachableNet (replying nullResultReply) emptyParamsText
        "/var/tmp/spdk.sock").result
      = .returned (some (.obj [("id", .num "1"), ("result", .null),
          ("version", .str "2.0")])) 0
    ∧ some (Json.obj [("id", .num "1"), ("result", .null), ("version", .str "2.0")])
      = some (.obj [("id", .num (toString (1 : Int))), ("result", .null),
          ("version", .str "2.0")]) :=
  ⟨rfl, null_result_envelope reachableNet (replying nullResultReply) emptyParamsText
    "/var/tmp/spdk.sock" { Version := "2.0", Error := none, Result := none, ID := 1 } _
    rfl rfl rfl rfl⟩

/-- C9, the code at request texts that are JSON but lack a string `method` or
a mapping `params`: with the socket reachable the unchecked type assertion
panics; with the socket unreachable the adapter returns status 2.  Status 1
with a nil buffer, and no call into the network, is what it returns for text
that is not JSON and for a JSON value that is neither an object nor `null`. -/
theorem unparsable_request :
    (spdk_gorpc_call reachableNet (replying emptyListReply) noMethodText
        "/var/tmp/spdk.sock").result
      = .panicked "interface conversion: interface \x7b\x7d is nil, not string"
    ∧ (spdk_gorpc_call reachableNet (replying emptyListReply) noParamsText
        "/var/tmp/spdk.sock").result
      = .panicked "interface conversion: interface \x7b\x7d is nil, not map[string]interface \x7b\x7d"
    ∧ (spdk_gorpc_call unreachableNet (replying emptyListReply) noMethodText
        "/var/tmp/spdk.sock").result
      = .returned none 2
    ∧ (∀ (net : Net) (peer : Stream) (err : GoError) (location : String),
        (spdk_gorpc_call net peer (.malformed err) location).result = .returned none 1
          ∧ (spdk_gorpc_call net peer (.malformed err) location).ops = [])
    ∧ (∀ (net : Net) (peer : Stream) (location : String),
        (spdk_gorpc_call net peer (.value (.arr [])) location).result = .returned none 1) :=
  ⟨rfl, rfl, rfl, fun _ _ _ _ => ⟨rfl, rfl⟩, fun _ _ _ => rfl⟩


/-! ### The choice of the network -/

theorem CreateClient_unix (net : Net) (network address : String)
    (h : network = "unix" ∨ network = "unixgram" ∨ network = "unixpacket") :
    CreateClientWithJsonCodec net network address =
      match createConnectionToSocket net address with
      | (.error err, ops) =>
        (.error (.wrap "error during client creation for Unix socket, err: " err), ops)
      | (.ok conn, ops) => (.ok { codec := createJsonCodec conn, requestId := 0 }, ops) := by
  unfold CreateClientWithJsonCodec
  rw [if_pos h]

theorem CreateClient_tcp (net : Net) (network address : String)
    (h : network = "tcp" ∨ network = "tcp4" ∨ network = "tcp6") :
    CreateClientWithJsonCodec net network address =
      match createConnectionToTcp net address with
      | (.error err, ops) =>
        (.error (.wrap "error during client creation for TCP socket, err: " err), ops)
      | (.ok conn, ops) => (.ok { codec := createJsonCodec conn, requestId := 0 }, ops) := by
  have hn : ¬ (network = "unix" ∨ network = "unixgram" ∨ network = "unixpacket") := by
    rcases h with h | h | h <;> subst h <;> decide
  unfold CreateClientWithJsonCodec
  rw [if_neg hn, if_pos h]

/-- C10: for every network name other than `unix`, `unixgram`, `unixpacket`,
`tcp`, `tcp4` and `tcp6`, and every address, `CreateClientWithJsonCodec`
returns no client and the error "unsupported network type", having made no
call into the network.  Under the three unix names it resolves the address as
a Unix address and, once resolved, dials it with `DialUnix`; under the three
tcp names it resolves a TCP address and dials it with `DialTCP`; a dial that
succeeds gives a client on that connection with its counter at zero. -/
theorem CreateClient_network :
    (∀ (net : Net) (network address : String),
        network ≠ "unix" → network ≠ "unixgram" → network ≠ "unixpacket" →
        network ≠ "tcp" → network ≠ "tcp4" → network ≠ "tcp6" →
        CreateClientWithJsonCodec net network address
          = (.error (.text "unsupported network type"), []))
    ∧ (∀ (net : Net) (network address : String) (a : Addr),
        network = "unix" ∨ network = "unixgram" ∨ network = "unixpacket" →
        net.ResolveUnixAddr "unix" address = .ok a →
        (CreateClientWithJsonCodec net network address).2
            = [.ResolveUnixAddr "unix" address, .DialUnix "unix" a]
          ∧ ∀ conn, net.DialUnix "unix" a = .ok conn →
              (CreateClientWithJsonCodec net network address).1
                = .ok { codec := createJsonCodec conn, requestId := 0 })
    ∧ (∀ (net : Net) (network address : String) (a : Addr),
        network = "tcp" ∨ network = "tcp4" ∨ network = "tcp6" →
        net.ResolveTCPAddr "tcp" address = .ok a →
        (CreateClientWithJsonCodec net network address).2
            = [.ResolveTCPAddr "tcp" address, .DialTCP "tcp" a]
          ∧ ∀ conn, net.DialTCP "tcp" a = .ok conn →
              (CreateClientWithJsonCodec net network address).1
                = .ok { codec := createJsonCodec conn, requestId := 0 }) := by
  refine ⟨?_, ?_, ?_⟩
  · intro net network address h1 h2 h3 h4 h5 h6
    unfold CreateClientWithJsonCodec
    rw [if_neg (by simp [h1, h2, h3]), if_neg (by simp [h4, h5, h6])]
  · intro net network address a h hr
    rw [CreateClient_unix net network address h]
    have hr2 : net.ResolveUnixAddr Unix address = .ok a := hr
    unfold createConnectionToSocket
    rw [hr2]
    dsimp only
    cases hd : net.DialUnix Unix a with
    | error e =>
      refine ⟨rfl, ?_⟩
      intro conn hc
      have hc2 : net.DialUnix Unix a = .ok conn := hc
      rw [hd] at hc2
      cases hc2
    | ok conn0 =>
      refine ⟨rfl, ?_⟩
      intro conn hc
      have hc2 : net.DialUnix Unix a = .ok conn := hc
      rw [hd] at hc2
      cases hc2
      rfl
  · intro net network address a h hr
    rw [CreateClient_tcp net network address h]
    have hr2 : net.ResolveTCPAddr TCP address = .ok a := hr
    unfold createConnectionToTcp
    rw [hr2]
    dsimp only
    cases hd : net.DialTCP TCP a with
    | error e =>
      refine ⟨rfl, ?_⟩
      intro conn hc
      have hc2 : net.DialTCP TCP a = .ok conn := hc
      rw [hd] at hc2
      cases hc2
    | ok conn0 =>
      refine ⟨rfl, ?_⟩
      intro conn hc
      have hc2 : net.DialTCP TCP a = .ok conn := hc
      rw [hd] at hc2
      cases hc2
      rfl

/-- C10, at the network names `udp`, `unixpacket` and `tcp4`. -/
theorem CreateClient_network_witness :
    CreateClientWithJsonCodec reachableNet "udp" "127.0.0.1:5260"
        = (.error (.text "unsupported network type"), [])
      ∧ (CreateClientWithJsonCodec reachableNet "unixpacket" "/var/tmp/spdk.sock").2
        = [.ResolveUnixAddr "unix" "/var/tmp/spdk.sock", .DialUnix "unix" ⟨"/var/tmp/spdk.sock"⟩]
      ∧ (CreateClientWithJsonCodec reachableNet "tcp4" "127.0.0.1:5260").1
        = .ok { codec := createJsonCodec ⟨"tcp", "127.0.0.1:5260"⟩, requestId := 0 } :=
  ⟨CreateClient_network.1 reachableNet "udp" "127.0.0.1:5260"
      (by decide) (by decide) (by decide) (by decide) (by decide) (by decide),
    (CreateClient_network.2.1 reachableNet "unixpacket" "/var/tmp/spdk.sock"
      ⟨"/var/tmp/spdk.sock"⟩ (by decide) rfl).1,
    (CreateClient_network.2.2 reachableNet "tcp4" "127.0.0.1:5260" ⟨"127.0.0.1:5260"⟩
      (by decide) rfl).2 ⟨"tcp", "127.0.0.1:5260"⟩ rfl⟩

end Spdk
